import Mathlib

/-
  Verification development for the gopher-luar type bridge
  (Godeps/_workspace/src/github.com/layeh/gopher-luar/map.go and the
  metatable/conversion file bundled with it).

  The Go code is shallowly embedded: Go `reflect` values become the
  inductive `GoValue`, gopher-lua `lua.LValue` becomes `LValue`, and the
  mutable interpreter state (`*lua.LState`: registry, allocated tables,
  allocated functions, plus the host map heap reachable from handles)
  becomes the record `LState`, threaded explicitly.  Go panics and Lua
  runtime errors are modelled with `Except String`.  IEEE-754 doubles
  appear only carrying integral values in the claims, so `lua.LNumber`
  carries an `Int` and the `int64 -> float64` conversion is modelled by
  the rounding function `f64ofInt` (round to nearest, ties to even, at
  53 significant bits), which is exact on the safe range.
-/

namespace Luar

/-- Width tags for Go's signed integer kinds (reflect.Int .. reflect.Int64). -/
inductive IntW where
  | i | i8 | i16 | i32 | i64
deriving DecidableEq

/-- Width tags for Go's unsigned integer kinds (reflect.Uint .. reflect.Uint64). -/
inductive UintW where
  | u | u8 | u16 | u32 | u64
deriving DecidableEq

/-- Bit width of a signed kind (reflect; `int` is 64-bit on the targets at hand). -/
def IntW.bits : IntW → Nat
  | .i => 64 | .i8 => 8 | .i16 => 16 | .i32 => 32 | .i64 => 64

/-- Bit width of an unsigned kind. -/
def UintW.bits : UintW → Nat
  | .u => 64 | .u8 => 8 | .u16 => 16 | .u32 => 32 | .u64 => 64

/-- Static Go types, as far as the bridge inspects them (`reflect.Type`).
Struct, array, channel and slice element structure is kept opaque where the
sources under verification never look inside. -/
inductive RType where
  | rBool
  | rInt (w : IntW)
  | rUint (w : UintW)
  | rFloat64
  | rString
  | rChan (t : RType)
  | rMap (kt et : RType)
  | rPtr (t : RType)
  | rSlice (t : RType)
  | rStruct (name : String)
  | rFuncT
  | rIfaceT (tag : Nat)
  | rUnsafePointer
  | rComplex
  | rArray (t : RType)
  | rLChannel
  | rLFunction
  | rLTable
  | rLState
deriving DecidableEq

/-- A Go value as seen through `reflect.ValueOf` on an `interface{}`.
Reference kinds (chan, map, ptr, slice, func) carry a heap reference so the
host's aliasing is visible; `nilRef t` is the typed zero value of a
reference type `t` (a non-nil interface holding a nil map/chan/ptr/slice).
`goNil` is the untyped nil interface.  The `lua*` constructors are
gopher-lua values travelling as Go values (they satisfy the open
`lua.LValue` interface).  `complex` and `array` are kinds for which `New`
has no case. -/
inductive GoValue where
  | goNil
  | bool (b : Bool)
  | int (w : IntW) (n : Int)
  | uint (w : UintW) (n : Nat)
  | float (x : Int)
  | chan (t : RType) (ref : Nat)
  | func (ref : Nat)
  | iface (tag : Nat)
  | map (kt et : RType) (ref : Nat)
  | ptr (t : RType) (ref : Nat)
  | slice (t : RType) (ref : Nat)
  | string (s : String)
  | struct (tyName : String) (rep : Nat)
  | unsafePointer (addr : Nat)
  | complex (re im : Int)
  | array (t : RType) (ref : Nat)
  | nilRef (t : RType)
  | luaChannel (ref : Nat)
  | luaFunction (ref : Nat)
  | luaTable (ref : Nat)
  | luaState
deriving DecidableEq

/-- Conversion of an integer to IEEE-754 double precision
(`float64(val.Int())` / `float64(val.Uint())`): round to nearest with 53
significant bits, ties to even.  Exact for every integer of magnitude at
most `2 ^ 53`. -/
def f64ofInt (n : Int) : Int :=
  let a := n.natAbs
  let k := if a ≤ 2 ^ 53 then 0 else Nat.log2 a - 52
  let q := a / 2 ^ k
  let r := a % 2 ^ k
  let q2 := if 2 * r > 2 ^ k ∨ (2 * r = 2 ^ k ∧ q % 2 = 1) then q + 1 else q
  n.sign * ((q2 * 2 ^ k : Nat) : Int)

/-- A gopher-lua value (`lua.LValue`).  `userdata` is `*lua.LUserData`:
`id` models pointer identity of the allocation, `value` the `Value` field
(the wrapped Go value) and `metatable` the `Metatable` field.  `other`
stands for any further implementation of the open `lua.LValue` interface,
for which the reverse converter has no case. -/
inductive LValue where
  | nil
  | bool (b : Bool)
  | number (x : Int)
  | str (s : String)
  | function (ref : Nat)
  | table (ref : Nat)
  | userdata (id : Nat) (value : GoValue) (metatable : LValue)
  | channel (ref : Nat)
  | state
  | other (tag : Nat)
deriving DecidableEq

/-- Association-list lookup (models Go map access and lua table raw access). -/
def alookup {α β : Type} [DecidableEq α] : List (α × β) → α → Option β
  | [], _ => none
  | (k0, v0) :: rest, k => if k = k0 then some v0 else alookup rest k

/-- Association-list update: replace the binding of `k`, or append it. -/
def aset {α β : Type} [DecidableEq α] : List (α × β) → α → β → List (α × β)
  | [], k, v => [(k, v)]
  | (k0, v0) :: rest, k, v =>
    if k = k0 then (k, v) :: rest else (k0, v0) :: aset rest k v

/-- The Go handler functions registered in `typeMetatable` (only their
identity matters for the metatable layout; `wrapper` marks the closure
allocated by `funcWrapper`). -/
inductive LGFunction where
  | chanIndexF | chanToStringF
  | mapIndexF | mapNewIndexF | mapLenF | mapCallF
  | ptrIndexF | ptrNewIndexF | ptrToStringF
  | sliceIndexF | sliceNewIndexF | sliceLenF
  | structIndexF | structNewIndexF
  | typeCallF | typeToStringF
  | baseToStringF | baseEqualF
  | wrapper
deriving DecidableEq

def sChan : String := "chan"
def sMap : String := "map"
def sPtr : String := "ptr"
def sSlice : String := "slice"
def sStruct : String := "struct"
def sTypeName : String := "type"
def mIndex : String := "__index"
def mNewIndex : String := "__newindex"
def mLen : String := "__len"
def mCall : String := "__call"
def mToString : String := "__tostring"
def mEq : String := "__eq"
def mMetatable : String := "__metatable"
def sMetatableKey : String := "github.com/layeh/gopher-luar"

/-- The package-level `typeMetatable` map built in `init()`: type name to
(method name, Go handler) assignments.  (Go map iteration order is
unspecified; the model fixes the source listing order, which only affects
which fresh ids the tables receive.) -/
def typeMetatable : List (String × List (String × LGFunction)) :=
  [(sChan, [(mIndex, .chanIndexF), (mToString, .chanToStringF), (mEq, .baseEqualF)]),
   (sMap, [(mIndex, .mapIndexF), (mNewIndex, .mapNewIndexF), (mLen, .mapLenF),
           (mCall, .mapCallF), (mToString, .baseToStringF), (mEq, .baseEqualF)]),
   (sPtr, [(mIndex, .ptrIndexF), (mNewIndex, .ptrNewIndexF), (mToString, .ptrToStringF),
           (mEq, .baseEqualF)]),
   (sSlice, [(mIndex, .sliceIndexF), (mNewIndex, .sliceNewIndexF), (mLen, .sliceLenF),
             (mToString, .baseToStringF), (mEq, .baseEqualF)]),
   (sStruct, [(mIndex, .structIndexF), (mNewIndex, .structNewIndexF),
              (mToString, .baseToStringF)]),
   (sTypeName, [(mCall, .typeCallF), (mToString, .typeToStringF)])]

/-- Contents of one `*lua.LTable` (only string keys are used by this code). -/
def TableData : Type := List (String × LValue)

instance : DecidableEq TableData := by
  unfold TableData; infer_instance

/-- The mutable interpreter state threaded through the bridge:
`registry` is `L.G.Registry` (the string-keyed slots this code uses),
`tables` and `funcs` are the heaps of allocated `*lua.LTable` and
`*lua.LFunction` objects, `maps` is the host heap of Go maps reachable
from handles, and `nextRef` is the allocator for fresh references. -/
structure LState where
  registry : List (String × LValue)
  tables : List (Nat × TableData)
  funcs : List (Nat × LGFunction)
  maps : List (Nat × List (GoValue × GoValue))
  nextRef : Nat
deriving DecidableEq

/-- A pristine interpreter state. -/
def L0 : LState :=
  { registry := [], tables := [], funcs := [], maps := [], nextRef := 0 }

/-- `Registry.RawGetH`: absent keys read as `LNil`. -/
def rawGet (reg : List (String × LValue)) (k : String) : LValue :=
  (alookup reg k).getD .nil

/-- `L.NewTable()`: allocate a fresh empty table. -/
def allocEmptyTable (L : LState) : Nat × LState :=
  (L.nextRef,
   ⟨L.registry, aset L.tables L.nextRef ([] : TableData), L.funcs, L.maps, L.nextRef + 1⟩)

/-- `L.NewFunction(fn)`: allocate a fresh `*lua.LFunction` wrapping a Go handler. -/
def newFunction (L : LState) (f : LGFunction) : Nat × LState :=
  (L.nextRef, ⟨L.registry, L.tables, aset L.funcs L.nextRef f, L.maps, L.nextRef + 1⟩)

/-- Read a table's contents from the heap (unallocated ids read as empty). -/
def tableData (L : LState) (tid : Nat) : TableData :=
  (alookup L.tables tid).getD []

/-- `tbl.RawSetH(k, v)` on the table with id `tid`. -/
def tableRawSet (L : LState) (tid : Nat) (k : String) (v : LValue) : LState :=
  ⟨L.registry, aset L.tables tid (aset (tableData L tid) k v), L.funcs, L.maps, L.nextRef⟩

/-- `tbl.RawGetH(k)` where `tbl` is an `LValue` expected to be a table. -/
def lTableGetLV (L : LState) (t : LValue) (k : String) : LValue :=
  match t with
  | .table tid => (alookup (tableData L tid) k).getD .nil
  | _ => .nil

/-- The inner loop of `ensureMetatable`: install `__metatable = true` plus a
fresh `*lua.LFunction` per handler into the type table `tid`. -/
def addMethods (L : LState) (tid : Nat) : List (String × LGFunction) → LState
  | [] => L
  | (name, f) :: rest =>
    let p := newFunction L f
    addMethods (tableRawSet p.2 tid name (.function p.1)) tid rest

/-- The outer loop of `ensureMetatable`: one protected type table per entry
of `typeMetatable`, hung off the root table `root`. -/
def addTypeTables (L : LState) (root : Nat) :
    List (String × List (String × LGFunction)) → LState
  | [] => L
  | (tyName, ms) :: rest =>
    let p := allocEmptyTable L
    let L2 := tableRawSet p.2 p.1 mMetatable (.bool true)
    let L3 := addMethods L2 p.1 ms
    let L4 := tableRawSet L3 root tyName (.table p.1)
    addTypeTables L4 root rest

/-- `ensureMetatable`: fetch the cached metatable set from the registry under
the fixed key, building and storing it on first use. -/
def ensureMetatable (L : LState) : LValue × LState :=
  match rawGet L.registry sMetatableKey with
  | .nil =>
    let p := allocEmptyTable L
    let L2 := addTypeTables p.2 p.1 typeMetatable
    let L3 : LState := ⟨aset L2.registry sMetatableKey (.table p.1),
      L2.tables, L2.funcs, L2.maps, L2.nextRef⟩
    (.table p.1, L3)
  | v => (v, L)

/-- The static type of a (non-nil-interface) Go value, `reflect.TypeOf`. -/
def rTypeOf : GoValue → Option RType
  | .goNil => none
  | .bool _ => some .rBool
  | .int w _ => some (.rInt w)
  | .uint w _ => some (.rUint w)
  | .float _ => some .rFloat64
  | .chan t _ => some (.rChan t)
  | .func _ => some .rFuncT
  | .iface tag => some (.rIfaceT tag)
  | .map kt et _ => some (.rMap kt et)
  | .ptr t _ => some (.rPtr t)
  | .slice t _ => some (.rSlice t)
  | .string _ => some .rString
  | .struct n _ => some (.rStruct n)
  | .unsafePointer _ => some .rUnsafePointer
  | .complex _ _ => some .rComplex
  | .array t _ => some (.rArray t)
  | .nilRef t => some t
  | .luaChannel _ => some .rLChannel
  | .luaFunction _ => some .rLFunction
  | .luaTable _ => some .rLTable
  | .luaState => some .rLState

/-- `reflect.Zero(hint)`: the zero value of a static type.  (Struct and
array zeros use the opaque representation `0`.) -/
def zeroValue : RType → GoValue
  | .rBool => .bool false
  | .rInt w => .int w 0
  | .rUint w => .uint w 0
  | .rFloat64 => .float 0
  | .rString => .string ""
  | .rStruct n => .struct n 0
  | .rComplex => .complex 0 0
  | .rUnsafePointer => .unsafePointer 0
  | .rArray t => .array t 0
  | t => .nilRef t

/-- The `value.(lua.LValue)` type assertion in `New`: gopher-lua values
travelling as Go values pass through unchanged. -/
def asLValue : GoValue → Option LValue
  | .luaChannel r => some (.channel r)
  | .luaFunction r => some (.function r)
  | .luaTable r => some (.table r)
  | .luaState => some .state
  | _ => none

/-- `reflect.Value.Interface()`: a zero value of static interface type
reads back as the untyped nil interface; every other value keeps its
dynamic identity. -/
def ifaceOf : GoValue → GoValue
  | .nilRef (.rIfaceT _) => .goNil
  | v => v

def eConvert : String := "reflect.Value.Convert: value of type float64 cannot be converted to hint type"
def eFatal : String := "fatal lValueToReflect error"
def eUncomparable : String := "runtime error: comparing uncomparable type"
def eBadArgUd : String := "bad argument (userdata expected)"
def eNotMap : String := "reflect: type asserted map operation on non-map value"
def eKeyType : String := "reflect.Value.MapIndex: key of wrong type"
def eElemType : String := "reflect.Value.SetMapIndex: value of wrong type"
def eNilMapWrite : String := "assignment to entry in nil map"
def eDeadKey : String := "reflect: call of reflect.Value.Interface on zero Value"
def ePushInvalid : String := "attempt to push a non-LValue"

/-- Two's-complement wrap of an integer into `bits` bits (models the
implementation-defined behaviour of Go's float-to-signed conversion; on the
ranges the claims exercise it is the identity). -/
def wrapSigned (bits : Nat) (x : Int) : Int :=
  (x + 2 ^ (bits - 1)) % 2 ^ bits - 2 ^ (bits - 1)

/-- `reflect.ValueOf(converted).Convert(hint)` on an `lua.LNumber` (a
float64): numeric hints convert (truncation is exact on the integral
doubles of this model), any non-numeric hint panics. -/
def convertNumber (x : Int) (hint : RType) : Except String GoValue :=
  match hint with
  | .rInt w => .ok (.int w (wrapSigned w.bits x))
  | .rUint w => .ok (.uint w ((x % 2 ^ w.bits).toNat))
  | .rFloat64 => .ok (.float x)
  | _ => .error eConvert

/-- `lValueToReflect`: reverse-convert a script value to a reflected Go
value, directed by the type hint.  The trailing `panic` of the source is
its defensive case for script value kinds with no case (`LValue.other`). -/
def lValueToReflect (v : LValue) (hint : RType) : Except String GoValue :=
  match v with
  | .bool b => .ok (.bool b)
  | .channel r => .ok (.luaChannel r)
  | .number x => convertNumber x hint
  | .function r => .ok (.luaFunction r)
  | .nil => .ok (zeroValue hint)
  | .state => .ok .luaState
  | .str s => .ok (.string s)
  | .table r => .ok (.luaTable r)
  | .userdata _ val _ => .ok val
  | .other _ => .error eFatal

/-- Modelled from the spec: `funcWrapper` lives in a repository file that is
not under src/ (only its caller `New` is); per spec section 4.2 it wraps a
host function value as a script-callable.  Only the allocation of that
callable matters to the claims at hand. -/
def funcWrapper (L : LState) (_v : GoValue) : Option LValue × LState :=
  let p := newFunction L .wrapper
  (some (.function p.1), p.2)

/-- `L.NewUserData()` followed by the two field assignments in `New`. -/
def mkUserData (L : LState) (v : GoValue) (mt : LValue) : Option LValue × LState :=
  (some (.userdata L.nextRef v mt), ⟨L.registry, L.tables, L.funcs, L.maps, L.nextRef + 1⟩)

/-- `New`: forward-convert a host value to a script value.  Returns `none`
exactly where the Go function falls through its kind switch and returns a
nil (invalid) `lua.LValue`. -/
def New (L : LState) (value : GoValue) : Option LValue × LState :=
  if value = .goNil then (some .nil, L) else
  match asLValue value with
  | some lval => (some lval, L)
  | none =>
    let table := (ensureMetatable L).1
    let L1 := (ensureMetatable L).2
    match value with
    | .bool b => (some (.bool b), L1)
    | .int _ n => (some (.number (f64ofInt n)), L1)
    | .uint _ n => (some (.number (f64ofInt (n : Int))), L1)
    | .float x => (some (.number x), L1)
    | .chan _ _ => mkUserData L1 value (lTableGetLV L1 table sChan)
    | .func _ => funcWrapper L1 value
    | .iface _ => mkUserData L1 value .nil
    | .map _ _ _ => mkUserData L1 value (lTableGetLV L1 table sMap)
    | .ptr _ _ => mkUserData L1 value (lTableGetLV L1 table sPtr)
    | .slice _ _ => mkUserData L1 value (lTableGetLV L1 table sSlice)
    | .string s => (some (.str s), L1)
    | .struct _ _ => mkUserData L1 value (lTableGetLV L1 table sStruct)
    | .unsafePointer _ => mkUserData L1 value .nil
    | .nilRef t =>
      match t with
      | .rChan _ => mkUserData L1 value (lTableGetLV L1 table sChan)
      | .rMap _ _ => mkUserData L1 value (lTableGetLV L1 table sMap)
      | .rPtr _ => mkUserData L1 value (lTableGetLV L1 table sPtr)
      | .rSlice _ => mkUserData L1 value (lTableGetLV L1 table sSlice)
      | .rFuncT => funcWrapper L1 value
      | _ => (none, L1)
    | _ => (none, L1)

/-- `NewType`: wrap a reified type descriptor with the `type` operator table. -/
def NewType (L : LState) (valueType : RType) : Option LValue × LState :=
  let table := (ensureMetatable L).1
  let L1 := (ensureMetatable L).2
  mkUserData L1 (.nilRef valueType) (lTableGetLV L1 table sTypeName)

/-- Whether Go's `==` is defined at a static type (maps, slices and
functions are uncomparable; comparing them through interfaces panics). -/
def comparableRType : RType → Bool
  | .rMap _ _ => false
  | .rSlice _ => false
  | .rFuncT => false
  | .rArray t => comparableRType t
  | _ => true

/-- Go interface equality `x == y` on two `interface{}` values: `false` for
differing dynamic types, panic for equal uncomparable dynamic types,
value/reference comparison otherwise. -/
def goEq (a b : GoValue) : Except String Bool :=
  match rTypeOf a, rTypeOf b with
  | some ta, some tb =>
    if ta = tb then
      if comparableRType ta then .ok (decide (a = b)) else .error eUncomparable
    else .ok false
  | none, none => .ok true
  | _, _ => .ok false

/-- `baseEqual`: the shared `__eq` handler; compares the wrapped `Value`
fields of the two userdata with Go `==` and pushes the boolean. -/
def baseEqual (a1 a2 : LValue) : Except String (List LValue) :=
  match a1, a2 with
  | .userdata _ v1 _, .userdata _ v2 _ =>
    match goEq v1 v2 with
    | .ok b => .ok [.bool b]
    | .error e => .error e
  | _, _ => .error eBadArgUd

/-- The entries of the Go map with heap reference `r`. -/
def mapsGet (L : LState) (r : Nat) : List (GoValue × GoValue) :=
  (alookup L.maps r).getD []

/-- `value.SetMapIndex(key, mapValue)` at heap reference `r`. -/
def mapsSet (L : LState) (r : Nat) (k v : GoValue) : LState :=
  ⟨L.registry, L.tables, L.funcs, aset L.maps r (aset (mapsGet L r) k v), L.nextRef⟩

/-- `mapLen`: the `__len` handler; pushes the entry count as an `LNumber`. -/
def mapLen (L : LState) (a1 : LValue) : Except String (List LValue) :=
  match a1 with
  | .userdata _ (.map _ _ r) _ => .ok [.number (f64ofInt ((mapsGet L r).length : Int))]
  | .userdata _ (.nilRef (.rMap _ _)) _ => .ok [.number 0]
  | .userdata _ _ _ => .error eNotMap
  | _ => .error eBadArgUd

/-- `mapIndex`: the `__index` handler; reverse-converts the key with the
map's key type as hint, looks it up, and forward-converts the hit.  An
absent key yields zero pushed results (which Lua reads as nil). -/
def mapIndex (L : LState) (a1 a2 : LValue) : Except String (List LValue × LState) :=
  match a1 with
  | .userdata _ udv _ =>
    match udv with
    | .map kt _ r =>
      match lValueToReflect a2 kt with
      | .error e => .error e
      | .ok key =>
        if rTypeOf key = some kt then
          match alookup (mapsGet L r) key with
          | none => .ok ([], L)
          | some item =>
            match New L (ifaceOf item) with
            | (some lv, L1) => .ok ([lv], L1)
            | (none, _) => .error ePushInvalid
        else .error eKeyType
    | .nilRef (.rMap kt _) =>
      match lValueToReflect a2 kt with
      | .error e => .error e
      | .ok key => if rTypeOf key = some kt then .ok ([], L) else .error eKeyType
    | _ => .error eNotMap
  | _ => .error eBadArgUd

/-- `mapNewIndex`: the `__newindex` handler; reverse-converts key and value
with the map's declared key/element types as hints and stores the pair. -/
def mapNewIndex (L : LState) (a1 a2 a3 : LValue) : Except String LState :=
  match a1 with
  | .userdata _ udv _ =>
    match udv with
    | .map kt et r =>
      match lValueToReflect a2 kt with
      | .error e => .error e
      | .ok key =>
        match lValueToReflect a3 et with
        | .error e => .error e
        | .ok mv =>
          if rTypeOf key = some kt then
            if rTypeOf mv = some et then .ok (mapsSet L r key mv)
            else .error eElemType
          else .error eKeyType
    | .nilRef (.rMap kt et) =>
      match lValueToReflect a2 kt with
      | .error e => .error e
      | .ok _ =>
        match lValueToReflect a3 et with
        | .error e => .error e
        | .ok _ => .error eNilMapWrite
    | _ => .error eNotMap
  | _ => .error eBadArgUd

/-- The state of the closure returned by `mapCall`: the key snapshot
(`value.MapKeys()` at creation time), the captured map reference, and the
mutable cursor `i`. -/
structure MapIter where
  mref : Nat
  keys : List GoValue
  i : Nat
deriving DecidableEq

/-- `mapCall`: the `__call` handler; snapshots the key set and returns the
iterator closure (the allocation of the closure object itself is not
tracked). -/
def mapCall (L : LState) (a1 : LValue) : Except String (MapIter × LState) :=
  match a1 with
  | .userdata _ (.map _ _ r) _ =>
    .ok ({ mref := r, keys := (mapsGet L r).map Prod.fst, i := 0 }, L)
  | .userdata _ (.nilRef (.rMap _ _)) _ =>
    .ok ({ mref := 0, keys := [], i := 0 }, L)
  | .userdata _ _ _ => .error eNotMap
  | _ => .error eBadArgUd

/-- One invocation of the iterator closure: exhausted iterators push
nothing; otherwise the snapshotted key is forward-converted, the value is
read from the map at visit time and forward-converted, and the cursor
advances. -/
def iterNext (L : LState) (it : MapIter) : Except String (List LValue × LState × MapIter) :=
  if h : it.i < it.keys.length then
    let k := it.keys.get ⟨it.i, h⟩
    match New L (ifaceOf k) with
    | (some lk, L1) =>
      match alookup (mapsGet L1 it.mref) k with
      | none => .error eDeadKey
      | some item =>
        match New L1 (ifaceOf item) with
        | (some lv, L2) => .ok ([lk, lv], L2, ⟨it.mref, it.keys, it.i + 1⟩)
        | (none, _) => .error ePushInvalid
    | (none, _) => .error ePushInvalid
  else .ok ([], L, it)

/-- Drive the iterator until it reports exhaustion (`fuel` bounds the number
of invocations), collecting the yielded (key, value) pairs. -/
def iterCollect (L : LState) (it : MapIter) :
    Nat → Except String (List (LValue × LValue) × LState × MapIter)
  | 0 => .ok ([], L, it)
  | fuel + 1 =>
    match iterNext L it with
    | .error e => .error e
    | .ok ([], L1, it1) => .ok ([], L1, it1)
    | .ok ([lk, lv], L1, it1) =>
      match iterCollect L1 it1 fuel with
      | .error e => .error e
      | .ok (ps, L2, it2) => .ok ((lk, lv) :: ps, L2, it2)
    | .ok (_, _, _) => .error ePushInvalid

/-- The primitive fragment of `New`: conversions whose script result does
not depend on the interpreter state. -/
def primConv : GoValue → Option LValue
  | .goNil => some .nil
  | .bool b => some (.bool b)
  | .int _ n => some (.number (f64ofInt n))
  | .uint _ n => some (.number (f64ofInt (n : Int)))
  | .float x => some (.number x)
  | .string s => some (.str s)
  | _ => none

/-- gopher-lua's reading of a handler's pushed results at an index site:
zero pushed values are seen as nil by the script. -/
def luaIndexResult (pushed : List LValue) : LValue :=
  pushed.headD .nil

/-! ### Arithmetic helper lemmas -/

theorem f64ofInt_exact {n : Int} (h : n.natAbs ≤ 2 ^ 53) : f64ofInt n = n := by
  unfold f64ofInt
  simp only [if_pos h, pow_zero, Nat.div_one, Nat.mod_one, Nat.mul_zero, mul_one]
  simpa using Int.sign_mul_natAbs n

theorem wrapSigned_eq {bits : Nat} (hb : 1 ≤ bits) {x : Int}
    (h1 : -(2 ^ (bits - 1) : Int) ≤ x) (h2 : x < 2 ^ (bits - 1)) :
    wrapSigned bits x = x := by
  unfold wrapSigned
  have hsplit : (2 : Int) ^ bits = 2 ^ (bits - 1) * 2 := by
    conv_lhs => rw [show bits = (bits - 1) + 1 by omega]
    rw [pow_succ]
  have h0 : 0 ≤ x + 2 ^ (bits - 1) := by omega
  have hlt : x + 2 ^ (bits - 1) < 2 ^ bits := by omega
  rw [Int.emod_eq_of_lt h0 hlt]
  ring

/-! ### Association-list lemmas -/

theorem alookup_aset_self {α β : Type} [DecidableEq α] (l : List (α × β)) (k : α) (v : β) :
    alookup (aset l k v) k = some v := by
  induction l with
  | nil => simp [aset, alookup]
  | cons hd tl ih =>
    obtain ⟨k0, v0⟩ := hd
    by_cases h : k = k0 <;> simp [aset, alookup, h, ih]

theorem alookup_aset_ne {α β : Type} [DecidableEq α] (l : List (α × β)) {k k2 : α} (v : β)
    (h : k ≠ k2) : alookup (aset l k2 v) k = alookup l k := by
  induction l with
  | nil => simp [aset, alookup, h]
  | cons hd tl ih =>
    obtain ⟨k0, v0⟩ := hd
    by_cases h2 : k2 = k0
    · subst h2; simp [aset, alookup, h]
    · by_cases h3 : k = k0 <;> simp [aset, alookup, h2, h3, ih]

theorem aset_length_ge {α β : Type} [DecidableEq α] (l : List (α × β)) (k : α) (v : β) :
    l.length ≤ (aset l k v).length := by
  induction l with
  | nil => simp [aset]
  | cons hd tl ih =>
    obtain ⟨k0, v0⟩ := hd
    by_cases h : k = k0
    · simp [aset, h]
    · simp only [aset, if_neg h, List.length_cons]
      omega

/-! ### State-component preservation through the metatable build -/

theorem addMethods_registry (tid : Nat) : ∀ (ms : List (String × LGFunction)) (L : LState),
    (addMethods L tid ms).registry = L.registry := by
  intro ms
  induction ms with
  | nil => intro L; rfl
  | cons hd tl ih =>
    intro L
    obtain ⟨name, f⟩ := hd
    simp [addMethods, ih, newFunction, tableRawSet]

theorem addTypeTables_registry (root : Nat) :
    ∀ (ts : List (String × List (String × LGFunction))) (L : LState),
    (addTypeTables L root ts).registry = L.registry := by
  intro ts
  induction ts with
  | nil => intro L; rfl
  | cons hd tl ih =>
    intro L
    obtain ⟨tyName, ms⟩ := hd
    simp [addTypeTables, ih, addMethods_registry, allocEmptyTable, tableRawSet]

theorem addMethods_maps (tid : Nat) : ∀ (ms : List (String × LGFunction)) (L : LState),
    (addMethods L tid ms).maps = L.maps := by
  intro ms
  induction ms with
  | nil => intro L; rfl
  | cons hd tl ih =>
    intro L
    obtain ⟨name, f⟩ := hd
    simp [addMethods, ih, newFunction, tableRawSet]

theorem addTypeTables_maps (root : Nat) :
    ∀ (ts : List (String × List (String × LGFunction))) (L : LState),
    (addTypeTables L root ts).maps = L.maps := by
  intro ts
  induction ts with
  | nil => intro L; rfl
  | cons hd tl ih =>
    intro L
    obtain ⟨tyName, ms⟩ := hd
    simp [addTypeTables, ih, addMethods_maps, allocEmptyTable, tableRawSet]

theorem ensureMetatable_maps (L : LState) : (ensureMetatable L).2.maps = L.maps := by
  unfold ensureMetatable
  match h : rawGet L.registry sMetatableKey with
  | .nil => simp [addTypeTables_maps, allocEmptyTable]
  | .bool b => rfl
  | .number x => rfl
  | .str s => rfl
  | .function r => rfl
  | .table r => rfl
  | .userdata i v m => rfl
  | .channel r => rfl
  | .state => rfl
  | .other t => rfl

theorem addMethods_nextRef (tid : Nat) : ∀ (ms : List (String × LGFunction)) (L : LState),
    L.nextRef ≤ (addMethods L tid ms).nextRef := by
  intro ms
  induction ms with
  | nil => intro L; exact le_refl _
  | cons hd tl ih =>
    intro L
    obtain ⟨name, f⟩ := hd
    calc L.nextRef ≤ L.nextRef + 1 := Nat.le_succ _
    _ ≤ _ := by
      simpa [addMethods, newFunction, tableRawSet] using
        ih (tableRawSet (newFunction L f).2 tid name (.function (newFunction L f).1))

theorem addTypeTables_nextRef (root : Nat) :
    ∀ (ts : List (String × List (String × LGFunction))) (L : LState),
    L.nextRef ≤ (addTypeTables L root ts).nextRef := by
  intro ts
  induction ts with
  | nil => intro L; exact le_refl _
  | cons hd tl ih =>
    intro L
    obtain ⟨tyName, ms⟩ := hd
    simp only [addTypeTables]
    have h1 : L.nextRef ≤ L.nextRef + 1 := Nat.le_succ _
    have h2 := addMethods_nextRef (allocEmptyTable L).1
      ms (tableRawSet (allocEmptyTable L).2 (allocEmptyTable L).1 mMetatable (.bool true))
    have h3 := ih (tableRawSet
      (addMethods (tableRawSet (allocEmptyTable L).2 (allocEmptyTable L).1 mMetatable
        (.bool true)) (allocEmptyTable L).1 ms) root tyName (.table (allocEmptyTable L).1))
    simp only [allocEmptyTable, tableRawSet] at h2 h3 ⊢
    omega

theorem ensureMetatable_nextRef (L : LState) : L.nextRef ≤ (ensureMetatable L).2.nextRef := by
  unfold ensureMetatable
  match h : rawGet L.registry sMetatableKey with
  | .nil =>
    have h2 := addTypeTables_nextRef (allocEmptyTable L).1 typeMetatable (allocEmptyTable L).2
    simp only [allocEmptyTable] at h2 ⊢
    omega
  | .bool b => exact le_refl _
  | .number x => exact le_refl _
  | .str s => exact le_refl _
  | .function r => exact le_refl _
  | .table r => exact le_refl _
  | .userdata i v m => exact le_refl _
  | .channel r => exact le_refl _
  | .state => exact le_refl _
  | .other t => exact le_refl _

/-! ### `ensureMetatable` characterization -/

theorem ensureMetatable_hit {L : LState} {v : LValue}
    (h : rawGet L.registry sMetatableKey = v) (hv : v ≠ .nil) :
    ensureMetatable L = (v, L) := by
  unfold ensureMetatable
  rw [h]
  cases v
  · exact absurd rfl hv
  all_goals rfl

theorem ensureMetatable_miss {L : LState} (h : rawGet L.registry sMetatableKey = .nil) :
    ensureMetatable L =
      (.table (allocEmptyTable L).1,
       ⟨aset (addTypeTables (allocEmptyTable L).2 (allocEmptyTable L).1
             typeMetatable).registry sMetatableKey (.table (allocEmptyTable L).1),
        (addTypeTables (allocEmptyTable L).2 (allocEmptyTable L).1 typeMetatable).tables,
        (addTypeTables (allocEmptyTable L).2 (allocEmptyTable L).1 typeMetatable).funcs,
        (addTypeTables (allocEmptyTable L).2 (allocEmptyTable L).1 typeMetatable).maps,
        (addTypeTables (allocEmptyTable L).2 (allocEmptyTable L).1 typeMetatable).nextRef⟩) := by
  unfold ensureMetatable
  rw [h]

theorem ensureMetatable_idem (L : LState) :
    ensureMetatable (ensureMetatable L).2 = ((ensureMetatable L).1, (ensureMetatable L).2) := by
  match h : rawGet L.registry sMetatableKey with
  | .nil =>
    rw [ensureMetatable_miss h]
    exact ensureMetatable_hit (by simp [rawGet, alookup_aset_self]) (by simp)
  | .bool b => rw [ensureMetatable_hit h (by simp)]; exact ensureMetatable_hit h (by simp)
  | .number x => rw [ensureMetatable_hit h (by simp)]; exact ensureMetatable_hit h (by simp)
  | .str s => rw [ensureMetatable_hit h (by simp)]; exact ensureMetatable_hit h (by simp)
  | .function r => rw [ensureMetatable_hit h (by simp)]; exact ensureMetatable_hit h (by simp)
  | .table r => rw [ensureMetatable_hit h (by simp)]; exact ensureMetatable_hit h (by simp)
  | .userdata i v m => rw [ensureMetatable_hit h (by simp)]; exact ensureMetatable_hit h (by simp)
  | .channel r => rw [ensureMetatable_hit h (by simp)]; exact ensureMetatable_hit h (by simp)
  | .state => rw [ensureMetatable_hit h (by simp)]; exact ensureMetatable_hit h (by simp)
  | .other t => rw [ensureMetatable_hit h (by simp)]; exact ensureMetatable_hit h (by simp)

/-! ### Existing tables are never rewritten by the build -/

theorem tableRawSet_tables_ne {L : LState} {tid j : Nat} (k : String) (v : LValue)
    (h : j ≠ tid) : alookup (tableRawSet L tid k v).tables j = alookup L.tables j := by
  simp [tableRawSet, alookup_aset_ne _ _ h]

theorem addMethods_tables (tid : Nat) : ∀ (ms : List (String × LGFunction)) (L : LState)
    (j : Nat), j ≠ tid → alookup (addMethods L tid ms).tables j = alookup L.tables j := by
  intro ms
  induction ms with
  | nil => intro L j h; rfl
  | cons hd tl ih =>
    intro L j h
    obtain ⟨name, f⟩ := hd
    rw [addMethods, ih _ _ h, tableRawSet_tables_ne _ _ h]
    rfl

theorem addTypeTables_tables (root : Nat) :
    ∀ (ts : List (String × List (String × LGFunction))) (L : LState) (j : Nat),
    j < L.nextRef → j ≠ root →
    alookup (addTypeTables L root ts).tables j = alookup L.tables j := by
  intro ts
  induction ts with
  | nil => intro L j hj hr; rfl
  | cons hd tl ih =>
    intro L j hj hr
    obtain ⟨tyName, ms⟩ := hd
    rw [addTypeTables]
    have hne : j ≠ (allocEmptyTable L).1 := by
      simp only [allocEmptyTable]
      omega
    have hlt : j < (tableRawSet (addMethods (tableRawSet (allocEmptyTable L).2
        (allocEmptyTable L).1 mMetatable (.bool true)) (allocEmptyTable L).1 ms) root tyName
        (.table (allocEmptyTable L).1)).nextRef := by
      have h2 := addMethods_nextRef (allocEmptyTable L).1 ms
        (tableRawSet (allocEmptyTable L).2 (allocEmptyTable L).1 mMetatable (.bool true))
      simp only [allocEmptyTable, tableRawSet] at h2 ⊢
      omega
    rw [ih _ _ hlt hr, tableRawSet_tables_ne _ _ hr, addMethods_tables _ _ _ _ hne,
        tableRawSet_tables_ne _ _ hne]
    simp only [allocEmptyTable, newFunction]
    exact alookup_aset_ne _ _ hne

section TablePreservation

attribute [local irreducible] addMethods addTypeTables

theorem ensureMetatable_tables {L : LState} {j : Nat} (hj : j < L.nextRef) :
    alookup (ensureMetatable L).2.tables j = alookup L.tables j := by
  by_cases h : rawGet L.registry sMetatableKey = .nil
  · rw [ensureMetatable_miss h]
    have hne : j ≠ (allocEmptyTable L).1 := by
      simp only [allocEmptyTable]; omega
    have hlt : j < (allocEmptyTable L).2.nextRef := by
      simp only [allocEmptyTable]; omega
    dsimp only
    rw [addTypeTables_tables _ _ _ _ hlt hne]
    simp only [allocEmptyTable]
    exact alookup_aset_ne _ _ hne
  · rw [ensureMetatable_hit rfl h]

end TablePreservation

/-! ### Behaviour of `New` at each kind -/

section NewLemmas

attribute [local irreducible] addMethods addTypeTables ensureMetatable

theorem New_map_eq (L : LState) (kt et : RType) (r : Nat) :
    New L (.map kt et r) =
      (some (.userdata (ensureMetatable L).2.nextRef (.map kt et r)
        (lTableGetLV (ensureMetatable L).2 (ensureMetatable L).1 sMap)),
       ⟨(ensureMetatable L).2.registry, (ensureMetatable L).2.tables,
        (ensureMetatable L).2.funcs, (ensureMetatable L).2.maps,
        (ensureMetatable L).2.nextRef + 1⟩) := by
  simp [New, asLValue, mkUserData]

theorem New_chan_eq (L : LState) (t : RType) (r : Nat) :
    New L (.chan t r) =
      (some (.userdata (ensureMetatable L).2.nextRef (.chan t r)
        (lTableGetLV (ensureMetatable L).2 (ensureMetatable L).1 sChan)),
       ⟨(ensureMetatable L).2.registry, (ensureMetatable L).2.tables,
        (ensureMetatable L).2.funcs, (ensureMetatable L).2.maps,
        (ensureMetatable L).2.nextRef + 1⟩) := by
  simp [New, asLValue, mkUserData]

theorem New_ptr_eq (L : LState) (t : RType) (r : Nat) :
    New L (.ptr t r) =
      (some (.userdata (ensureMetatable L).2.nextRef (.ptr t r)
        (lTableGetLV (ensureMetatable L).2 (ensureMetatable L).1 sPtr)),
       ⟨(ensureMetatable L).2.registry, (ensureMetatable L).2.tables,
        (ensureMetatable L).2.funcs, (ensureMetatable L).2.maps,
        (ensureMetatable L).2.nextRef + 1⟩) := by
  simp [New, asLValue, mkUserData]

theorem New_slice_eq (L : LState) (t : RType) (r : Nat) :
    New L (.slice t r) =
      (some (.userdata (ensureMetatable L).2.nextRef (.slice t r)
        (lTableGetLV (ensureMetatable L).2 (ensureMetatable L).1 sSlice)),
       ⟨(ensureMetatable L).2.registry, (ensureMetatable L).2.tables,
        (ensureMetatable L).2.funcs, (ensureMetatable L).2.maps,
        (ensureMetatable L).2.nextRef + 1⟩) := by
  simp [New, asLValue, mkUserData]

theorem New_fst_prim {v : GoValue} {lv : LValue} (h : primConv v = some lv) (L : LState) :
    (New L v).1 = some lv := by
  cases v <;> simp_all [primConv, New, asLValue]

theorem New_maps (L : LState) (v : GoValue) : (New L v).2.maps = L.maps := by
  cases v
  case nilRef t =>
    cases t <;>
      simp [New, asLValue, mkUserData, funcWrapper, newFunction, ensureMetatable_maps]
  all_goals
    simp [New, asLValue, mkUserData, funcWrapper, newFunction, ensureMetatable_maps]

theorem New_mapsGet (L : LState) (v : GoValue) (r : Nat) :
    mapsGet (New L v).2 r = mapsGet L r := by
  unfold mapsGet
  rw [New_maps]

theorem New_tables {L : LState} (v : GoValue) {j : Nat} (hj : j < L.nextRef) :
    alookup (New L v).2.tables j = alookup L.tables j := by
  have he := ensureMetatable_tables (L := L) (j := j) hj
  cases v
  case nilRef t =>
    cases t <;>
      simp_all [New, asLValue, mkUserData, funcWrapper, newFunction]
  all_goals
    simp_all [New, asLValue, mkUserData, funcWrapper, newFunction]

theorem New_registry_cached (L : LState) (v : GoValue) :
    (New (ensureMetatable L).2 v).2.registry = (ensureMetatable L).2.registry ∧
    (New (ensureMetatable L).2 v).2.tables = (ensureMetatable L).2.tables := by
  have hsnd : (ensureMetatable (ensureMetatable L).2).2 = (ensureMetatable L).2 :=
    congrArg Prod.snd (ensureMetatable_idem L)
  cases v
  case nilRef t =>
    cases t <;> simp_all [New, asLValue, mkUserData, funcWrapper, newFunction]
  all_goals
    simp_all [New, asLValue, mkUserData, funcWrapper, newFunction]

end NewLemmas

/-! ### Further helper lemmas -/

theorem ensureMetatable_get (L : LState) :
    rawGet (ensureMetatable L).2.registry sMetatableKey = (ensureMetatable L).1 := by
  by_cases h : rawGet L.registry sMetatableKey = .nil
  · rw [ensureMetatable_miss h]
    simp [rawGet, alookup_aset_self]
  · rw [ensureMetatable_hit rfl h]

theorem rTypeOf_zeroValue (t : RType) : rTypeOf (zeroValue t) = some t := by
  cases t <;> rfl

theorem IntW.bits_pos (w : IntW) : 1 ≤ w.bits := by
  cases w <;> decide

theorem iterNext_exhausted (L : LState) (it : MapIter) (h : it.keys.length ≤ it.i) :
    iterNext L it = .ok ([], L, it) := by
  unfold iterNext
  rw [dif_neg (by omega)]

section IterLemmas

attribute [local irreducible] addMethods addTypeTables ensureMetatable New

theorem iterCollect_run (r : Nat) (E : List (GoValue × GoValue)) :
    ∀ (fuel : Nat) (L : LState) (it : MapIter),
      it.mref = r → mapsGet L r = E → it.i ≤ it.keys.length →
      it.keys.length - it.i ≤ fuel →
      (∀ k ∈ it.keys.drop it.i, (primConv (ifaceOf k)).isSome) →
      (∀ k ∈ it.keys.drop it.i, ∃ v, alookup E k = some v ∧ (primConv (ifaceOf v)).isSome) →
      ∃ L2, iterCollect L it fuel =
          .ok ((it.keys.drop it.i).map (fun k =>
                ((primConv (ifaceOf k)).getD .nil,
                 ((alookup E k).bind (fun v => primConv (ifaceOf v))).getD .nil)),
               L2, ⟨r, it.keys, it.keys.length⟩) ∧
        mapsGet L2 r = E := by
  intro fuel
  induction fuel with
  | zero =>
    intro L it hr hE hle hfuel hk hv
    obtain ⟨mr, ks, ii⟩ := it
    dsimp only at hr hE hle hfuel hk hv ⊢
    have hieq : ii = ks.length := by omega
    subst hieq
    subst hr
    refine ⟨L, ?_, hE⟩
    simp [iterCollect, List.drop_length]
  | succ f ih =>
    intro L it hr hE hle hfuel hk hv
    obtain ⟨mr, ks, ii⟩ := it
    dsimp only at hr hE hle hfuel hk hv ⊢
    subst hr
    by_cases hlt : ii < ks.length
    case neg =>
      have hieq : ii = ks.length := by omega
      subst hieq
      refine ⟨L, ?_, hE⟩
      have hnext : iterNext L ⟨mr, ks, ks.length⟩ = .ok ([], L, ⟨mr, ks, ks.length⟩) :=
        iterNext_exhausted _ _ (by exact le_refl _)
      simp [iterCollect, hnext, List.drop_length]
    case pos =>
      have hdropc : ks.drop ii = ks.get ⟨ii, hlt⟩ :: ks.drop (ii + 1) := by
        rw [List.drop_eq_getElem_cons hlt]
        simp
      have hkmem : ks.get ⟨ii, hlt⟩ ∈ ks.drop ii := by
        rw [hdropc]; exact List.mem_cons_self _ _
      obtain ⟨lk, hlk⟩ := Option.isSome_iff_exists.mp (hk _ hkmem)
      obtain ⟨v, hvE, hvs⟩ := hv _ hkmem
      obtain ⟨lvv, hlvv⟩ := Option.isSome_iff_exists.mp hvs
      have hN1 : New L (ifaceOf (ks.get ⟨ii, hlt⟩)) =
          (some lk, (New L (ifaceOf (ks.get ⟨ii, hlt⟩))).2) := by
        conv_lhs => rw [← Prod.mk.eta (p := New L (ifaceOf (ks.get ⟨ii, hlt⟩)))]
        rw [New_fst_prim hlk L]
      have hmg1 : mapsGet (New L (ifaceOf (ks.get ⟨ii, hlt⟩))).2 mr = E := by
        rw [New_mapsGet, hE]
      have hN2 : New (New L (ifaceOf (ks.get ⟨ii, hlt⟩))).2 (ifaceOf v) =
          (some lvv, (New (New L (ifaceOf (ks.get ⟨ii, hlt⟩))).2 (ifaceOf v)).2) := by
        conv_lhs => rw [← Prod.mk.eta
          (p := New (New L (ifaceOf (ks.get ⟨ii, hlt⟩))).2 (ifaceOf v))]
        rw [New_fst_prim hlvv _]
      have hstep : iterNext L ⟨mr, ks, ii⟩ =
          .ok ([lk, lvv], (New (New L (ifaceOf (ks.get ⟨ii, hlt⟩))).2 (ifaceOf v)).2,
            ⟨mr, ks, ii + 1⟩) := by
        unfold iterNext
        rw [dif_pos hlt]
        dsimp only
        rw [hN1]
        dsimp only
        rw [hmg1, hvE]
        dsimp only
        rw [hN2]
      obtain ⟨L2, hIC, hE2⟩ := ih (New (New L (ifaceOf (ks.get ⟨ii, hlt⟩))).2 (ifaceOf v)).2
        ⟨mr, ks, ii + 1⟩ rfl (by rw [New_mapsGet, New_mapsGet, hE]) (by dsimp only; omega)
        (by dsimp only; omega)
        (by
          intro k2 hk2
          exact hk k2 (by rw [hdropc]; exact List.mem_cons_of_mem _ hk2))
        (by
          intro k2 hk2
          exact hv k2 (by rw [hdropc]; exact List.mem_cons_of_mem _ hk2))
      refine ⟨L2, ?_, hE2⟩
      rw [iterCollect, hstep]
      dsimp only at hIC ⊢
      rw [hIC, hdropc]
      simp only [List.map_cons, hlk, hvE, hlvv, Option.getD_some, Option.some_bind]

end IterLemmas

/-! ### Concrete states and decidable registry checks -/

def kNA : String := "NA"
def vNA : String := "North America"
def kEU : String := "EU"
def vEU : String := "European Union"
def kAS : String := "AS"
def vAS : String := "Asia"
def sK : String := "K"
def sV : String := "V"
def sMissing : String := "missing"
def sX : String := "x"

/-- A concrete interpreter state owning one empty host map at reference 0. -/
def LM0 : LState := ⟨[], [], [], [(0, [])], 0⟩

/-- A concrete state owning the documentation example map (two entries) at
reference 5. -/
def LIT : LState :=
  ⟨[], [], [], [(5, [(.string kNA, .string vNA), (.string kEU, .string vEU)])], 0⟩

/-- `LIT` after the host added a third entry to the same map. -/
def LIT2 : LState :=
  ⟨[], [], [], [(5, [(.string kNA, .string vNA), (.string kEU, .string vEU),
                     (.string kAS, .string vAS)])], 0⟩

def isTableLV : LValue → Bool
  | .table _ => true
  | _ => false

/-- Whether the root metatable binds each of the six type names to a table. -/
def sixTables (L : LState) (root : LValue) : Bool :=
  [sChan, sMap, sPtr, sSlice, sStruct, sTypeName].all
    (fun n => isTableLV (lTableGetLV L root n))

/-- Whether the type table under `name` protects itself with
`__metatable = true`. -/
def tableProtected (L : LState) (root : LValue) (name : String) : Bool :=
  match lTableGetLV L root name with
  | .table tid => decide (alookup (tableData L tid) mMetatable = some (.bool true))
  | _ => false

/-- All six operator tables protect themselves. -/
def allProtected (L : LState) (root : LValue) : Bool :=
  [sChan, sMap, sPtr, sSlice, sStruct, sTypeName].all (tableProtected L root)

theorem sixTables_L0 : sixTables (ensureMetatable L0).2 (ensureMetatable L0).1 = true := by
  decide

theorem allProtected_L0 :
    allProtected (ensureMetatable L0).2 (ensureMetatable L0).1 = true := by
  decide

theorem mapsGet_mapsSet (L : LState) (r : Nat) (k v : GoValue) :
    mapsGet (mapsSet L r k v) r = aset (mapsGet L r) k v := by
  simp [mapsGet, mapsSet, alookup_aset_self]

theorem isSome_bind_elim {α β : Type} {o : Option α} {f : α → Option β}
    (h : (o.bind f).isSome) : ∃ a, o = some a ∧ (f a).isSome := by
  cases o with
  | none => simp at h
  | some a => exact ⟨a, rfl, by simpa using h⟩

instance {ε α : Type} [DecidableEq ε] [DecidableEq α] : DecidableEq (Except ε α) := fun a b =>
  match a, b with
  | .error e1, .error e2 => decidable_of_iff (e1 = e2) (by simp)
  | .ok v1, .ok v2 => decidable_of_iff (v1 = v2) (by simp)
  | .error _, .ok _ => isFalse (by simp)
  | .ok _, .error _ => isFalse (by simp)

/-! ### Equality handler helpers -/

section EqHelpers

attribute [local irreducible] addMethods addTypeTables ensureMetatable New

theorem baseEqual_refl {v : GoValue} {ta : RType} (h : rTypeOf v = some ta)
    (hc : comparableRType ta = true) (i1 i2 : Nat) (m1 m2 : LValue) :
    baseEqual (.userdata i1 v m1) (.userdata i2 v m2) = .ok [.bool true] := by
  simp [baseEqual, goEq, h, hc]

theorem baseEqual_uncomparable {v : GoValue} {ta : RType} (h : rTypeOf v = some ta)
    (hc : comparableRType ta = false) (i1 i2 : Nat) (m1 m2 : LValue) :
    baseEqual (.userdata i1 v m1) (.userdata i2 v m2) = .error eUncomparable := by
  simp [baseEqual, goEq, h, hc]

theorem mapNewIndex_frame {L : LState} {a1 a2 a3 : LValue} {L2 : LState}
    (h : mapNewIndex L a1 a2 a3 = .ok L2) :
    L2.tables = L.tables ∧ L2.registry = L.registry ∧ L2.funcs = L.funcs := by
  unfold mapNewIndex at h
  repeat' split at h
  any_goals exact Except.noConfusion h
  injection h with h
  subst h
  exact ⟨rfl, rfl, rfl⟩

theorem mapIndex_tables {L : LState} {a1 a2 : LValue} {res : List LValue} {L2 : LState}
    (h : mapIndex L a1 a2 = .ok (res, L2)) {j : Nat} (hj : j < L.nextRef) :
    alookup L2.tables j = alookup L.tables j := by
  unfold mapIndex at h
  repeat' split at h
  any_goals exact Except.noConfusion h
  all_goals (
    injection h with h
    injection h with hres hL2
    subst hL2)
  · rfl
  · rename_i item heq1 x2 lv L1 heq
    have hN := New_tables (L := L) (ifaceOf item) hj
    rw [heq] at hN
    exact hN
  · rfl

end EqHelpers

/-! ### Claim theorems -/

section ClaimTheorems

attribute [local irreducible] addMethods addTypeTables ensureMetatable New

/-- Claim C1: for every host boolean, string, and integer in the safe
double-precision range (and within its width's range), forward conversion by
`New` followed by reverse conversion by `lValueToReflect`, hinted at the
original host type, returns a host value equal to the original. -/
theorem c1_roundtrip_primitives (L : LState) (b : Bool) (s : String) (w : IntW) (n : Int)
    (hlo : -(2 ^ (w.bits - 1) : Int) ≤ n) (hhi : n < 2 ^ (w.bits - 1))
    (hsafe : n.natAbs ≤ 2 ^ 53) :
    (∃ lv, (New L (.bool b)).1 = some lv ∧ lValueToReflect lv .rBool = .ok (.bool b)) ∧
    (∃ lv, (New L (.string s)).1 = some lv ∧ lValueToReflect lv .rString = .ok (.string s)) ∧
    (∃ lv, (New L (.int w n)).1 = some lv ∧ lValueToReflect lv (.rInt w) = .ok (.int w n)) := by
  refine ⟨⟨.bool b,
      New_fst_prim (show primConv (GoValue.bool b) = some (LValue.bool b) from rfl) L, rfl⟩,
    ⟨.str s,
      New_fst_prim (show primConv (GoValue.string s) = some (LValue.str s) from rfl) L, rfl⟩,
    ⟨.number (f64ofInt n),
     New_fst_prim (show primConv (GoValue.int w n) = some (LValue.number (f64ofInt n))
       from rfl) L, ?_⟩⟩
  rw [f64ofInt_exact hsafe]
  show convertNumber n (.rInt w) = .ok (.int w n)
  unfold convertNumber
  dsimp only
  rw [wrapSigned_eq (IntW.bits_pos w) hlo hhi]

/-- Claim C3: a host value whose runtime kind has no conversion case in `New`
(complex numbers; likewise arrays) makes the forward converter return the
invalid result `none` (Go: a nil `lua.LValue`), not a well-formed embedded
value. -/
theorem c3_unsupported_kind_invalid (L : LState) :
    (∀ re im : Int, (New L (.complex re im)).1 = none) ∧
    (∀ (t : RType) (r : Nat), (New L (.array t r)).1 = none) := by
  constructor
  · intro re im
    simp [New, asLValue]
  · intro t r
    simp [New, asLValue]

/-- Claim C6: an index-read of a key absent from the underlying map succeeds
with zero pushed results — which the script reads as nil — and raises no
error. -/
theorem c6_absent_key_reads_nil (L : LState) (i r : Nat) (kt et : RType)
    (mt a2 : LValue) (K : GoValue)
    (hconv : lValueToReflect a2 kt = .ok K) (hty : rTypeOf K = some kt)
    (habs : alookup (mapsGet L r) K = none) :
    mapIndex L (.userdata i (.map kt et r) mt) a2 = .ok ([], L) ∧
    luaIndexResult [] = .nil := by
  refine ⟨?_, rfl⟩
  unfold mapIndex
  dsimp only
  rw [hconv]
  dsimp only
  rw [if_pos hty, habs]

/-- Claim C7: a script value whose type has no applicable case in the
reverse converter (any implementation of the open `lua.LValue` interface
beyond the nine built-in kinds) triggers the unconditional fatal internal
error for every hint; no default or zero value is ever returned for it. -/
theorem c7_reverse_fatal_on_unknown (tag : Nat) (hint : RType) :
    lValueToReflect (.other tag) hint = .error eFatal := rfl

/-- Claim C5: an index-write of V at K through a map handle stores V in the
underlying map, and a subsequent index-read of K — through the same handle
or any handle on the same map reference, fresh or not — returns the
forward conversion of the stored V. -/
theorem c5_map_write_then_read (L : LState) (i i2 r : Nat) (kt et : RType)
    (mt mt2 a2 a3 : LValue) (K V : GoValue)
    (hk : lValueToReflect a2 kt = .ok K) (hkt : rTypeOf K = some kt)
    (hv : lValueToReflect a3 et = .ok V) (hvt : rTypeOf V = some et) :
    mapNewIndex L (.userdata i (.map kt et r) mt) a2 a3 = .ok (mapsSet L r K V) ∧
    alookup (mapsGet (mapsSet L r K V) r) K = some V ∧
    mapIndex (mapsSet L r K V) (.userdata i2 (.map kt et r) mt2) a2 =
      (match New (mapsSet L r K V) (ifaceOf V) with
       | (some lv, L3) => Except.ok ([lv], L3)
       | (none, _) => Except.error ePushInvalid) := by
  have hlook : alookup (mapsGet (mapsSet L r K V) r) K = some V := by
    rw [mapsGet_mapsSet]
    exact alookup_aset_self _ _ _
  refine ⟨?_, hlook, ?_⟩
  · unfold mapNewIndex
    dsimp only
    rw [hk]
    dsimp only
    rw [hv]
    dsimp only
    rw [if_pos hkt, if_pos hvt]
  · unfold mapIndex
    dsimp only
    rw [hk]
    dsimp only
    rw [if_pos hkt, hlook]

/-- Claim C10: an index-write of script nil at K stores the zero value of the
map's element type under K — it does not delete the key: K is then present,
reading K forward-converts that stored zero, and the map never shrinks. -/
theorem c10_nil_write_stores_zero (L : LState) (i i2 r : Nat) (kt et : RType)
    (mt mt2 a2 : LValue) (K : GoValue)
    (hk : lValueToReflect a2 kt = .ok K) (hkt : rTypeOf K = some kt) :
    mapNewIndex L (.userdata i (.map kt et r) mt) a2 .nil =
      .ok (mapsSet L r K (zeroValue et)) ∧
    alookup (mapsGet (mapsSet L r K (zeroValue et)) r) K = some (zeroValue et) ∧
    (mapsGet L r).length ≤ (mapsGet (mapsSet L r K (zeroValue et)) r).length ∧
    mapIndex (mapsSet L r K (zeroValue et)) (.userdata i2 (.map kt et r) mt2) a2 =
      (match New (mapsSet L r K (zeroValue et)) (ifaceOf (zeroValue et)) with
       | (some lv, L3) => Except.ok ([lv], L3)
       | (none, _) => Except.error ePushInvalid) := by
  have hlook : alookup (mapsGet (mapsSet L r K (zeroValue et)) r) K =
      some (zeroValue et) := by
    rw [mapsGet_mapsSet]
    exact alookup_aset_self _ _ _
  refine ⟨?_, hlook, ?_, ?_⟩
  · unfold mapNewIndex
    dsimp only
    rw [hk]
    dsimp only
    rw [show lValueToReflect LValue.nil et = Except.ok (zeroValue et) from rfl]
    dsimp only
    rw [if_pos hkt, if_pos (rTypeOf_zeroValue et)]
  · rw [mapsGet_mapsSet]
    exact aset_length_ge _ _ _
  · unfold mapIndex
    dsimp only
    rw [hk]
    dsimp only
    rw [if_pos hkt, hlook]

/-- Claim C2 (amended): two forward conversions of the same non-primitive
host value yield two distinct opaque handles, and the `__eq` handler decides
equality from the wrapped host references, not handle identity — it returns
true for two handles on the same channel or pointer; for two handles on the
same map or slice it faults, because Go `==` panics on interfaces of an
uncomparable dynamic type. -/
theorem c2_two_handles_eq_by_underlying_ref (L : LState) (t kt et : RType)
    (rc rp rm rs : Nat) :
    (∃ m1 m2 S1 S2 i1 i2,
      New L (.chan t rc) = (some (.userdata i1 (.chan t rc) m1), S1) ∧
      New S1 (.chan t rc) = (some (.userdata i2 (.chan t rc) m2), S2) ∧
      i1 ≠ i2 ∧
      baseEqual (.userdata i1 (.chan t rc) m1) (.userdata i2 (.chan t rc) m2) =
        .ok [.bool true]) ∧
    (∃ m1 m2 S1 S2 i1 i2,
      New L (.ptr t rp) = (some (.userdata i1 (.ptr t rp) m1), S1) ∧
      New S1 (.ptr t rp) = (some (.userdata i2 (.ptr t rp) m2), S2) ∧
      i1 ≠ i2 ∧
      baseEqual (.userdata i1 (.ptr t rp) m1) (.userdata i2 (.ptr t rp) m2) =
        .ok [.bool true]) ∧
    (∃ m1 m2 S1 S2 i1 i2,
      New L (.map kt et rm) = (some (.userdata i1 (.map kt et rm) m1), S1) ∧
      New S1 (.map kt et rm) = (some (.userdata i2 (.map kt et rm) m2), S2) ∧
      i1 ≠ i2 ∧
      baseEqual (.userdata i1 (.map kt et rm) m1) (.userdata i2 (.map kt et rm) m2) =
        .error eUncomparable) ∧
    (∃ m1 m2 S1 S2 i1 i2,
      New L (.slice t rs) = (some (.userdata i1 (.slice t rs) m1), S1) ∧
      New S1 (.slice t rs) = (some (.userdata i2 (.slice t rs) m2), S2) ∧
      i1 ≠ i2 ∧
      baseEqual (.userdata i1 (.slice t rs) m1) (.userdata i2 (.slice t rs) m2) =
        .error eUncomparable) := by
  refine ⟨?_, ?_, ?_, ?_⟩
  · refine ⟨_, _, _, _, _, _, New_chan_eq L t rc, New_chan_eq _ t rc, ?_,
      baseEqual_refl (show rTypeOf (GoValue.chan t rc) = some (RType.rChan t) from rfl)
        rfl _ _ _ _⟩
    have hb := ensureMetatable_nextRef
      (⟨(ensureMetatable L).2.registry, (ensureMetatable L).2.tables,
        (ensureMetatable L).2.funcs, (ensureMetatable L).2.maps,
        (ensureMetatable L).2.nextRef + 1⟩ : LState)
    dsimp only at hb
    omega
  · refine ⟨_, _, _, _, _, _, New_ptr_eq L t rp, New_ptr_eq _ t rp, ?_,
      baseEqual_refl (show rTypeOf (GoValue.ptr t rp) = some (RType.rPtr t) from rfl)
        rfl _ _ _ _⟩
    have hb := ensureMetatable_nextRef
      (⟨(ensureMetatable L).2.registry, (ensureMetatable L).2.tables,
        (ensureMetatable L).2.funcs, (ensureMetatable L).2.maps,
        (ensureMetatable L).2.nextRef + 1⟩ : LState)
    dsimp only at hb
    omega
  · refine ⟨_, _, _, _, _, _, New_map_eq L kt et rm, New_map_eq _ kt et rm, ?_,
      baseEqual_uncomparable (show rTypeOf (GoValue.map kt et rm) = some (RType.rMap kt et)
        from rfl) rfl _ _ _ _⟩
    have hb := ensureMetatable_nextRef
      (⟨(ensureMetatable L).2.registry, (ensureMetatable L).2.tables,
        (ensureMetatable L).2.funcs, (ensureMetatable L).2.maps,
        (ensureMetatable L).2.nextRef + 1⟩ : LState)
    dsimp only at hb
    omega
  · refine ⟨_, _, _, _, _, _, New_slice_eq L t rs, New_slice_eq _ t rs, ?_,
      baseEqual_uncomparable (show rTypeOf (GoValue.slice t rs) = some (RType.rSlice t)
        from rfl) rfl _ _ _ _⟩
    have hb := ensureMetatable_nextRef
      (⟨(ensureMetatable L).2.registry, (ensureMetatable L).2.tables,
        (ensureMetatable L).2.funcs, (ensureMetatable L).2.maps,
        (ensureMetatable L).2.nextRef + 1⟩ : LState)
    dsimp only at hb
    omega

/-- Claim C4: calling a map handle snapshots the map's key set and returns a
fresh iterator; driving that iterator — even after the underlying map was
mutated — yields exactly the snapshotted keys, each exactly once and in
snapshot order, paired with values read from the map at visit time; keys
added after snapshot creation are never yielded, and an exhausted iterator
yields nothing on every further call. -/
theorem c4_map_iterator_snapshot (L L2 : LState) (udId r : Nat) (kt et : RType)
    (mt : LValue)
    (hk : ∀ k ∈ (mapsGet L r).map Prod.fst, (primConv (ifaceOf k)).isSome)
    (hv : ∀ k ∈ (mapsGet L r).map Prod.fst,
      ((alookup (mapsGet L2 r) k).bind (fun v => primConv (ifaceOf v))).isSome) :
    mapCall L (.userdata udId (.map kt et r) mt) =
      .ok (⟨r, (mapsGet L r).map Prod.fst, 0⟩, L) ∧
    (∃ L3, iterCollect L2 ⟨r, (mapsGet L r).map Prod.fst, 0⟩
        ((mapsGet L r).map Prod.fst).length =
      .ok (((mapsGet L r).map Prod.fst).map (fun k =>
            ((primConv (ifaceOf k)).getD .nil,
             ((alookup (mapsGet L2 r) k).bind (fun v => primConv (ifaceOf v))).getD .nil)),
           L3, ⟨r, (mapsGet L r).map Prod.fst, ((mapsGet L r).map Prod.fst).length⟩)) ∧
    (∀ (L4 : LState) (it : MapIter), it.keys.length ≤ it.i →
      iterNext L4 it = .ok ([], L4, it)) := by
  refine ⟨rfl, ?_, iterNext_exhausted⟩
  obtain ⟨L3, hIC, _⟩ := iterCollect_run r (mapsGet L2 r)
    (((mapsGet L r).map Prod.fst).length) L2 ⟨r, (mapsGet L r).map Prod.fst, 0⟩
    rfl rfl (by dsimp only; omega) (by dsimp only; omega)
    (by
      intro k hmem
      exact hk k (by simpa using hmem))
    (by
      intro k hmem
      obtain ⟨v, hvv, hvs⟩ := isSome_bind_elim (hv k (by simpa using hmem))
      exact ⟨v, hvv, hvs⟩)
  refine ⟨L3, ?_⟩
  simpa using hIC

/-- Claim C8: the operator-table set is built at most once per interpreter
state: re-running `ensureMetatable` returns the cached root table and leaves
the state unchanged; the cached root table sits in the registry under the
fixed key; later conversions reuse it without touching registry or table
heap; and after the first run from a pristine state the root table carries
the six named operator tables. -/
theorem c8_operator_tables_built_once :
    (∀ L : LState, ensureMetatable (ensureMetatable L).2 =
        ((ensureMetatable L).1, (ensureMetatable L).2)) ∧
    (∀ L : LState, rawGet (ensureMetatable L).2.registry sMetatableKey =
        (ensureMetatable L).1) ∧
    (∀ (L : LState) (v : GoValue),
        (New (ensureMetatable L).2 v).2.registry = (ensureMetatable L).2.registry ∧
        (New (ensureMetatable L).2 v).2.tables = (ensureMetatable L).2.tables) ∧
    sixTables (ensureMetatable L0).2 (ensureMetatable L0).1 = true :=
  ⟨ensureMetatable_idem, ensureMetatable_get, New_registry_cached, sixTables_L0⟩

/-- Claim C9: a handle's operator table is assigned exactly once, at forward
conversion time, from the cached registry tables; the map proxy's write
handler touches only the map heap (never tables, registry or functions);
its read handler never rewrites an existing table; and every operator table
installs `__metatable`, so scripts can neither retrieve nor replace it. -/
theorem c9_operator_table_fixed_at_creation :
    (∀ (L : LState) (kt et : RType) (r : Nat),
      (New L (.map kt et r)).1 =
        some (.userdata (ensureMetatable L).2.nextRef (.map kt et r)
          (lTableGetLV (ensureMetatable L).2 (ensureMetatable L).1 sMap))) ∧
    (∀ (L : LState) (a1 a2 a3 : LValue) (L2 : LState),
      mapNewIndex L a1 a2 a3 = .ok L2 →
        L2.tables = L.tables ∧ L2.registry = L.registry ∧ L2.funcs = L.funcs) ∧
    (∀ (L : LState) (a1 a2 : LValue) (res : List LValue) (L2 : LState) (j : Nat),
      mapIndex L a1 a2 = .ok (res, L2) → j < L.nextRef →
        alookup L2.tables j = alookup L.tables j) ∧
    allProtected (ensureMetatable L0).2 (ensureMetatable L0).1 = true := by
  refine ⟨?_, ?_, ?_, allProtected_L0⟩
  · intro L kt et r
    simpa using congrArg Prod.fst (New_map_eq L kt et r)
  · intro L a1 a2 a3 L2 h
    exact mapNewIndex_frame h
  · intro L a1 a2 res L2 j h hj
    exact mapIndex_tables h hj

end ClaimTheorems

/-! ### Counterexample for claim C2 as stated -/

/-- Counterexample to claim C2 as frozen: two forward conversions of the
same host map do produce two distinct handles, but the handles' equality
operator does not return true for them — `baseEqual` faults, because Go
`==` panics when the interfaces' shared dynamic type (a map type) is
uncomparable. -/
theorem c2_counterexample_map_eq_panics :
    ((New LM0 (.map .rString .rString 0)).1 ≠
      (New (New LM0 (.map .rString .rString 0)).2 (.map .rString .rString 0)).1) ∧
    (match (New LM0 (.map .rString .rString 0)).1,
           (New (New LM0 (.map .rString .rString 0)).2 (.map .rString .rString 0)).1 with
     | some h1, some h2 => baseEqual h1 h2
     | _, _ => .error eBadArgUd) = .error eUncomparable := by
  decide

/-! ### Witnesses: the claim theorems applied at concrete inputs -/

/-- Witness for C1 at `true`, `"x"`, and the 64-bit integer 3. -/
theorem c1_roundtrip_primitives_witness :
    (∃ lv, (New L0 (.bool true)).1 = some lv ∧
      lValueToReflect lv .rBool = .ok (.bool true)) ∧
    (∃ lv, (New L0 (.string sX)).1 = some lv ∧
      lValueToReflect lv .rString = .ok (.string sX)) ∧
    (∃ lv, (New L0 (.int .i 3)).1 = some lv ∧
      lValueToReflect lv (.rInt .i) = .ok (.int .i 3)) :=
  c1_roundtrip_primitives L0 true sX .i 3 (by decide) (by decide) (by decide)

/-- Witness for the amended C2 at concrete string-typed references. -/
theorem c2_two_handles_witness :
    (∃ m1 m2 S1 S2 i1 i2,
      New L0 (.chan .rString 0) = (some (.userdata i1 (.chan .rString 0) m1), S1) ∧
      New S1 (.chan .rString 0) = (some (.userdata i2 (.chan .rString 0) m2), S2) ∧
      i1 ≠ i2 ∧
      baseEqual (.userdata i1 (.chan .rString 0) m1) (.userdata i2 (.chan .rString 0) m2) =
        .ok [.bool true]) ∧
    (∃ m1 m2 S1 S2 i1 i2,
      New L0 (.ptr .rString 0) = (some (.userdata i1 (.ptr .rString 0) m1), S1) ∧
      New S1 (.ptr .rString 0) = (some (.userdata i2 (.ptr .rString 0) m2), S2) ∧
      i1 ≠ i2 ∧
      baseEqual (.userdata i1 (.ptr .rString 0) m1) (.userdata i2 (.ptr .rString 0) m2) =
        .ok [.bool true]) ∧
    (∃ m1 m2 S1 S2 i1 i2,
      New L0 (.map .rString .rString 0) =
        (some (.userdata i1 (.map .rString .rString 0) m1), S1) ∧
      New S1 (.map .rString .rString 0) =
        (some (.userdata i2 (.map .rString .rString 0) m2), S2) ∧
      i1 ≠ i2 ∧
      baseEqual (.userdata i1 (.map .rString .rString 0) m1)
          (.userdata i2 (.map .rString .rString 0) m2) =
        .error eUncomparable) ∧
    (∃ m1 m2 S1 S2 i1 i2,
      New L0 (.slice .rString 0) = (some (.userdata i1 (.slice .rString 0) m1), S1) ∧
      New S1 (.slice .rString 0) = (some (.userdata i2 (.slice .rString 0) m2), S2) ∧
      i1 ≠ i2 ∧
      baseEqual (.userdata i1 (.slice .rString 0) m1) (.userdata i2 (.slice .rString 0) m2) =
        .error eUncomparable) :=
  c2_two_handles_eq_by_underlying_ref L0 .rString .rString .rString 0 0 0 0

/-- Witness for C4 on the documentation example: snapshot over the NA/EU
map, iterate after a third key was added. -/
theorem c4_map_iterator_snapshot_witness :
    mapCall LIT (.userdata 1 (.map .rString .rString 5) .nil) =
      .ok (⟨5, (mapsGet LIT 5).map Prod.fst, 0⟩, LIT) ∧
    (∃ L3, iterCollect LIT2 ⟨5, (mapsGet LIT 5).map Prod.fst, 0⟩
        ((mapsGet LIT 5).map Prod.fst).length =
      .ok (((mapsGet LIT 5).map Prod.fst).map (fun k =>
            ((primConv (ifaceOf k)).getD .nil,
             ((alookup (mapsGet LIT2 5) k).bind (fun v => primConv (ifaceOf v))).getD .nil)),
           L3, ⟨5, (mapsGet LIT 5).map Prod.fst, ((mapsGet LIT 5).map Prod.fst).length⟩)) ∧
    (∀ (L4 : LState) (it : MapIter), it.keys.length ≤ it.i →
      iterNext L4 it = .ok ([], L4, it)) :=
  c4_map_iterator_snapshot LIT LIT2 1 5 .rString .rString .nil (by decide) (by decide)

/-- Witness for C5: write `"V"` at `"K"` and read it back through a fresh
handle on the same map. -/
theorem c5_map_write_then_read_witness :
    mapNewIndex LM0 (.userdata 7 (.map .rString .rString 0) .nil) (.str sK) (.str sV) =
      .ok (mapsSet LM0 0 (.string sK) (.string sV)) ∧
    alookup (mapsGet (mapsSet LM0 0 (.string sK) (.string sV)) 0) (.string sK) =
      some (.string sV) ∧
    mapIndex (mapsSet LM0 0 (.string sK) (.string sV))
        (.userdata 8 (.map .rString .rString 0) .nil) (.str sK) =
      (match New (mapsSet LM0 0 (.string sK) (.string sV)) (ifaceOf (.string sV)) with
       | (some lv, L3) => Except.ok ([lv], L3)
       | (none, _) => Except.error ePushInvalid) :=
  c5_map_write_then_read LM0 7 8 0 .rString .rString .nil .nil (.str sK) (.str sV)
    (.string sK) (.string sV) rfl rfl rfl rfl

/-- Witness for C6: reading the absent key `"missing"` from the empty map. -/
theorem c6_absent_key_reads_nil_witness :
    mapIndex LM0 (.userdata 7 (.map .rString .rString 0) .nil) (.str sMissing) =
      .ok ([], LM0) ∧
    luaIndexResult [] = .nil :=
  c6_absent_key_reads_nil LM0 7 0 .rString .rString .nil (.str sMissing)
    (.string sMissing) rfl rfl rfl

/-- Witness for C9 at a concrete successful map write. -/
theorem c9_operator_table_fixed_witness :
    (mapsSet LM0 0 (.string sK) (.string sV)).tables = LM0.tables ∧
    (mapsSet LM0 0 (.string sK) (.string sV)).registry = LM0.registry ∧
    (mapsSet LM0 0 (.string sK) (.string sV)).funcs = LM0.funcs :=
  c9_operator_table_fixed_at_creation.2.1 LM0
    (.userdata 7 (.map .rString .rString 0) .nil) (.str sK) (.str sV)
    (mapsSet LM0 0 (.string sK) (.string sV)) rfl

/-- Witness for C10: writing script nil at `"K"` into a `map[string]string`
stores the empty string. -/
theorem c10_nil_write_stores_zero_witness :
    mapNewIndex LM0 (.userdata 7 (.map .rString .rString 0) .nil) (.str sK) .nil =
      .ok (mapsSet LM0 0 (.string sK) (zeroValue .rString)) ∧
    alookup (mapsGet (mapsSet LM0 0 (.string sK) (zeroValue .rString)) 0) (.string sK) =
      some (zeroValue .rString) ∧
    (mapsGet LM0 0).length ≤ (mapsGet (mapsSet LM0 0 (.string sK) (zeroValue .rString)) 0).length ∧
    mapIndex (mapsSet LM0 0 (.string sK) (zeroValue .rString))
        (.userdata 8 (.map .rString .rString 0) .nil) (.str sK) =
      (match New (mapsSet LM0 0 (.string sK) (zeroValue .rString))
          (ifaceOf (zeroValue .rString)) with
       | (some lv, L3) => Except.ok ([lv], L3)
       | (none, _) => Except.error ePushInvalid) :=
  c10_nil_write_stores_zero LM0 7 8 0 .rString .rString .nil .nil (.str sK)
    (.string sK) rfl rfl

end Luar
